import Mathlib

/-!
Shallow embedding of the Expense Tracker analytics and query engine
(`src/services/analytics_service.py`, `src/services/expenses_service.py`,
`src/utils/dates.py`) together with proofs about the behaviour the
specification describes.

Modelling conventions:
* the SQLite `expenses` table is a `List Expense`;
* SQL `REAL` amounts are modelled as `ℚ` (exact arithmetic);
* `date` columns are ISO strings compared lexicographically, exactly as
  SQLite compares `TEXT` values in `BETWEEN` / `>=` / `<=`;
* Python `round(x, 2)` is modelled by `round2` (round to a multiple of
  `1/100`);
* `ORDER BY` is modelled by `List.insertionSort` with the corresponding
  comparison relation;
* Python truthiness on optional string arguments (`if category:`) is
  modelled by `strActive`, while `is not None` checks are `Option.isSome`.
-/

namespace ExpenseTracker

/-- Row of the `expenses` table, as created in `db.py` (`init_db`). -/
structure Expense where
  id : Nat
  date : String
  amount : ℚ
  category : String
  subcategory : String
  note : String
  tax_deductible : Int
  currency : String
  payment_method : String
deriving Repr, DecidableEq

/-- Python truthiness of an optional string argument: `if s:` succeeds
exactly when the argument is present and non-empty. -/
def strActive (s : Option String) : Bool :=
  match s with
  | none => false
  | some t => t ≠ ""

/-- SQLite `TEXT` comparison (`memcmp` on the UTF-8 encoding, which for
ISO dates is plain lexicographic character order), as a relation on the
character lists of the two strings. -/
def asciiLe (a b : String) : Prop :=
  a.data ≤ b.data

instance : DecidableRel asciiLe := fun a b => by
  unfold asciiLe; infer_instance

instance : IsTrans String asciiLe :=
  ⟨fun _ _ _ hab hbc => le_trans hab hbc⟩

instance : IsTotal String asciiLe :=
  ⟨fun a b => le_total a.data b.data⟩

/-- SQL `date BETWEEN ? AND ?` over ISO date strings (lexicographic
`TEXT` comparison, both bounds inclusive). -/
def inRange (start_date end_date : String) (r : Expense) : Bool :=
  decide (asciiLe start_date r.date) && decide (asciiLe r.date end_date)

/-- Optional `AND category = ?` clause: the Python services append it only
when the `category` argument is truthy (`if category:`). -/
def catMatch (category : Option String) (r : Expense) : Bool :=
  if strActive category then r.category == category.getD "" else true

/-- Sum of the `amount` column over a list of rows (SQL `SUM(amount)`,
with `NULL`-on-empty already coerced to 0 as the services do via `or 0`). -/
def sumAmounts (l : List Expense) : ℚ :=
  (l.map (·.amount)).sum

/-- Python `round(x, 2)`: round to a multiple of 1/100.  (The services
only need *some* consistent 2-decimal rounding; we use round-half-up.) -/
def round2 (x : ℚ) : ℚ :=
  (round (100 * x) : ℤ) / 100

/-- Value representable with two decimal places, i.e. an integer number
of cents.  This is what "rounded to 2 decimal places" guarantees about a
response field, independently of the tie-breaking scheme. -/
def isCent (x : ℚ) : Prop :=
  ∃ n : ℤ, x = (n : ℚ) / 100

theorem isCent_round2 (x : ℚ) : isCent (round2 x) :=
  ⟨round (100 * x), rfl⟩

theorem round2_zero : round2 0 = 0 := by
  simp [round2]

theorem abs_round2_sub_le (x : ℚ) : |round2 x - x| ≤ 1 / 200 := by
  have h := abs_sub_round (100 * x)
  rw [abs_sub_comm] at h
  have h200 : |round2 x - x| * 100 ≤ (1 / 2 : ℚ) := by
    calc |round2 x - x| * 100 = |(round2 x - x) * 100| := by
          rw [abs_mul]; norm_num
      _ = |(round (100 * x) : ℚ) - 100 * x| := by
          unfold round2; congr 1; ring
      _ ≤ 1 / 2 := h
  nlinarith [abs_nonneg (round2 x - x)]

theorem round2_mono {x y : ℚ} (h : x ≤ y) : round2 x ≤ round2 y := by
  unfold round2
  have : round (100 * x) ≤ round (100 * y) := by
    rw [round_eq, round_eq]
    exact Int.floor_mono (by linarith)
  have hc : ((round (100 * x) : ℤ) : ℚ) ≤ ((round (100 * y) : ℤ) : ℚ) := by
    exact_mod_cast this
  linarith

/-! ## Tax classifier (`tax_summary`, `analytics_service.py` lines 288-304) -/

/-- Condition 1 of the classifier: `cat in ["business", "education",
"subscriptions"]`. -/
def isWorkCat (category : String) : Prop :=
  category = "business" ∨ category = "education" ∨ category = "subscriptions"

instance (category : String) : Decidable (isWorkCat category) := by
  unfold isWorkCat; infer_instance

/-- Python `str.lower()` restricted to ASCII letters (the classifier only
compares against the ASCII literal `"insurance"`). -/
def lowerStr (s : String) : String :=
  String.mk (s.data.map Char.toLower)

/-- Condition 3 of the classifier: `"insurance" in (subcategory or
"").lower()`. -/
def hasInsuranceSub (subcategory : Option String) : Prop :=
  "insurance".data <:+: (lowerStr (subcategory.getD "")).data

instance (subcategory : Option String) : Decidable (hasInsuranceSub subcategory) := by
  unfold hasInsuranceSub; infer_instance

/-- Bucket assignment of `tax_summary`'s per-expense classification chain
(`if cat in [...] ... elif ... else`), as a function of the category and
the optional subcategory. -/
def classify (category : String) (subcategory : Option String) : String :=
  if isWorkCat category then "Werbungskosten (Work-related)"
  else if category = "health" then "Gesundheitskosten (Health)"
  else if hasInsuranceSub subcategory then "Versicherungen (Insurance)"
  else if category = "gifts_donations" then "Spenden (Donations)"
  else "Sonstige (Other)"

/-- Five fixed bucket labels in the order `tax_summary` declares them. -/
def taxBuckets : List String :=
  ["Werbungskosten (Work-related)", "Gesundheitskosten (Health)",
   "Versicherungen (Insurance)", "Spenden (Donations)", "Sonstige (Other)"]

/-- C1: the tax classifier is a total deterministic function: for every
category string and optional subcategory string it assigns exactly one of
the five fixed buckets, following the exact priority order (work-related
categories first, then `health`, then an "insurance" substring in the
subcategory, then `gifts_donations`, otherwise Other); each bucket label
is reached exactly under its rule's condition with all earlier rules
failing, so no input gets two buckets or none, and the function never
fails. -/
theorem classify_total_exact_priority :
    ∀ (category : String) (subcategory : Option String),
      classify category subcategory ∈ taxBuckets ∧
      (classify category subcategory = "Werbungskosten (Work-related)" ↔
        isWorkCat category) ∧
      (classify category subcategory = "Gesundheitskosten (Health)" ↔
        (¬ isWorkCat category ∧ category = "health")) ∧
      (classify category subcategory = "Versicherungen (Insurance)" ↔
        (¬ isWorkCat category ∧ category ≠ "health" ∧ hasInsuranceSub subcategory)) ∧
      (classify category subcategory = "Spenden (Donations)" ↔
        (¬ isWorkCat category ∧ category ≠ "health" ∧ ¬ hasInsuranceSub subcategory ∧
          category = "gifts_donations")) ∧
      (classify category subcategory = "Sonstige (Other)" ↔
        (¬ isWorkCat category ∧ category ≠ "health" ∧ ¬ hasInsuranceSub subcategory ∧
          category ≠ "gifts_donations")) := by
  intro category subcategory
  unfold classify taxBuckets
  split_ifs with h1 h2 h3 h4 <;>
    refine ⟨by simp, ?_, ?_, ?_, ?_, ?_⟩ <;>
    constructor <;>
    intro h <;>
    simp_all <;>
    first
      | exact h.1 (by rw [h.2]; exact h1)
      | exact h.1 (by rw [h.2.2.2]; exact h1)

/-- Witness for C1: a transaction with an unbucketed category but an
"insurance" subcategory lands in the Insurance bucket via rule 3. -/
theorem classify_total_exact_priority_witness :
    classify "rent" (some "Car Insurance") = "Versicherungen (Insurance)" :=
  (classify_total_exact_priority "rent" (some "Car Insurance")).2.2.2.1.mpr
    ⟨by decide, by decide, by decide⟩

/-! ## Search/filter builder (`expenses_service.py`, `search_expenses`) -/

/-- Optional filter arguments of `search_expenses`, mirroring the Python
keyword arguments (all default `None`). -/
structure SearchFilters where
  start_date : Option String := none
  end_date : Option String := none
  category : Option String := none
  min_amount : Option ℚ := none
  max_amount : Option ℚ := none
  note_contains : Option String := none
  tax_deductible : Option Int := none
deriving Repr, DecidableEq

/-- Conjunction of the optional predicates `search_expenses` appends to
`WHERE 1=1`.  String-valued filters are guarded by Python truthiness
(`if start_date:` etc.), so an empty string skips the clause; the numeric
and flag filters are guarded by `is not None`.  `note LIKE '%..%'` is
modelled as ASCII-case-insensitive containment, which is SQLite `LIKE`
semantics for patterns without further wildcards. -/
def matchesFilters (f : SearchFilters) (r : Expense) : Bool :=
  (if strActive f.start_date then decide (asciiLe (f.start_date.getD "") r.date) else true) &&
  (if strActive f.end_date then decide (asciiLe r.date (f.end_date.getD "")) else true) &&
  (if strActive f.category then r.category == f.category.getD "" else true) &&
  (match f.min_amount with
    | none => true
    | some m => decide (m ≤ r.amount)) &&
  (match f.max_amount with
    | none => true
    | some m => decide (r.amount ≤ m)) &&
  (if strActive f.note_contains then
    decide ((lowerStr (f.note_contains.getD "")).data <:+: (lowerStr r.note).data)
   else true) &&
  (match f.tax_deductible with
    | none => true
    | some b => r.tax_deductible == b)

/-- Row order produced by `ORDER BY date DESC, id DESC`. -/
def newestFirst (a b : Expense) : Prop :=
  b.date.data < a.date.data ∨ (b.date = a.date ∧ b.id ≤ a.id)

instance : DecidableRel newestFirst := fun a b => by
  unfold newestFirst; infer_instance

/-- Shape of the `search_expenses` response. -/
structure SearchResult where
  results : List Expense
  total_count : Nat
  limit : Int
  offset : Int
deriving Repr, DecidableEq

/-- Model of `search_expenses`: filter, order newest-first, then apply
SQLite `LIMIT ? OFFSET ?` (a negative `LIMIT` means "no limit", a
negative `OFFSET` behaves like zero), and compute `total_count` with the
same filters and no pagination. -/
def search_expenses (f : SearchFilters) (limit offset : Int)
    (ledger : List Expense) : SearchResult :=
  let matched := ledger.filter (matchesFilters f)
  let ordered := List.insertionSort newestFirst matched
  let paged :=
    if limit < 0 then ordered.drop offset.toNat
    else (ordered.drop offset.toNat).take limit.toNat
  { results := paged, total_count := matched.length, limit := limit, offset := offset }

/-- Argument record with every filter absent (`search` with no filters). -/
def noFilters : SearchFilters := {}

theorem matchesFilters_noFilters (r : Expense) : matchesFilters noFilters r = true :=
  rfl

/-! ## CRUD error paths (`expenses_service.py`, `edit_expense` /
`delete_expense`) -/

/-- Optional per-column update arguments of `edit_expense` (all default
`None`; a field participates in the `UPDATE` exactly when it
`is not None`). -/
structure UpdateFields where
  date : Option String := none
  amount : Option ℚ := none
  category : Option String := none
  subcategory : Option String := none
  note : Option String := none
  tax_deductible : Option Int := none
  currency : Option String := none
  payment_method : Option String := none
deriving Repr, DecidableEq

/-- Whether `edit_expense` collects at least one `SET` clause. -/
def hasUpdate (u : UpdateFields) : Bool :=
  u.date.isSome || u.amount.isSome || u.category.isSome || u.subcategory.isSome ||
  u.note.isSome || u.tax_deductible.isSome || u.currency.isSome || u.payment_method.isSome

/-- Effect of the generated `UPDATE ... SET` on one row. -/
def applyUpdate (u : UpdateFields) (r : Expense) : Expense :=
  { r with
    date := u.date.getD r.date
    amount := u.amount.getD r.amount
    category := u.category.getD r.category
    subcategory := u.subcategory.getD r.subcategory
    note := u.note.getD r.note
    tax_deductible := u.tax_deductible.getD r.tax_deductible
    currency := u.currency.getD r.currency
    payment_method := u.payment_method.getD r.payment_method }

/-- Structured result dictionary returned by the CRUD operations
(`{"status": ..., "message": ...}`, plus the re-selected row on a
successful edit). -/
structure OpResult where
  status : String
  message : String := ""
  expense : Option Expense := none
deriving Repr, DecidableEq

/-- Model of `edit_expense`: look up the id; report a structured error if
it is absent or if no field was supplied; otherwise update the matching
row and re-select it.  Returns the result record and the new table
state. -/
def edit_expense (ledger : List Expense) (id : Nat) (u : UpdateFields) :
    OpResult × List Expense :=
  if (ledger.filter (fun r => r.id == id)).isEmpty then
    ({ status := "error",
       message := "Expense with id " ++ toString id ++ " not found" }, ledger)
  else if hasUpdate u = false then
    ({ status := "error", message := "No fields to update" }, ledger)
  else
    let updated := ledger.map (fun r => if r.id == id then applyUpdate u r else r)
    ({ status := "ok",
       expense := (updated.filter (fun r => r.id == id)).head? }, updated)

/-- Model of `delete_expense`: report a structured error if the id is
absent, otherwise delete the matching row. -/
def delete_expense (ledger : List Expense) (id : Nat) :
    OpResult × List Expense :=
  if (ledger.filter (fun r => r.id == id)).isEmpty then
    ({ status := "error",
       message := "Expense with id " ++ toString id ++ " not found" }, ledger)
  else
    ({ status := "ok",
       message := "Expense " ++ toString id ++ " deleted successfully" },
     ledger.filter (fun r => !(r.id == id)))

/-- Every row in a `search_expenses` result page satisfies the filter
predicate (pages are carved out of the filtered, re-ordered row set). -/
theorem mem_search_results {f : SearchFilters} {limit offset : Int}
    {ledger : List Expense} {r : Expense}
    (hr : r ∈ (search_expenses f limit offset ledger).results) :
    matchesFilters f r = true := by
  unfold search_expenses at hr
  simp only at hr
  by_cases hl : limit < 0 <;> simp only [hl, if_true, if_false, ite_true, ite_false] at hr
  · exact (List.mem_filter.mp
      ((List.mem_insertionSort newestFirst).mp (List.mem_of_mem_drop hr))).2
  · exact (List.mem_filter.mp
      ((List.mem_insertionSort newestFirst).mp
        (List.mem_of_mem_drop (List.mem_of_mem_take hr)))).2

/-- C2 (amended): `total_count` equals the number of ledger rows matching
the filter predicate with pagination removed; it bounds the page length
from above and does not depend on `limit`/`offset`; with no filters it is
the full ledger size; and for non-negative `limit` and `offset` the page
length is `min limit (total_count - offset)` (zero once `offset` reaches
`total_count`).  (For a negative `limit`, SQLite disables the limit, so
the `min` formula of the original claim does not apply there.) -/
theorem search_total_count_pagination :
    ∀ (f : SearchFilters) (limit offset : Int) (ledger : List Expense),
      (search_expenses f limit offset ledger).total_count
          = (ledger.filter (matchesFilters f)).length ∧
      (search_expenses f limit offset ledger).results.length
          ≤ (search_expenses f limit offset ledger).total_count ∧
      (∀ limit2 offset2 : Int,
        (search_expenses f limit2 offset2 ledger).total_count
          = (search_expenses f limit offset ledger).total_count) ∧
      (search_expenses noFilters limit offset ledger).total_count = ledger.length ∧
      (0 ≤ limit → 0 ≤ offset →
        (search_expenses f limit offset ledger).results.length
          = min limit.toNat
              ((search_expenses f limit offset ledger).total_count - offset.toNat)) := by
  intro f limit offset ledger
  have hnof : ledger.filter (matchesFilters noFilters) = ledger :=
    List.filter_eq_self.mpr (fun a _ => matchesFilters_noFilters a)
  refine ⟨rfl, ?_, fun limit2 offset2 => rfl, ?_, ?_⟩
  · unfold search_expenses
    by_cases hl : limit < 0 <;>
      simp [hl, List.length_take, List.length_drop, List.length_insertionSort]
  · unfold search_expenses
    simp [hnof]
  · intro hlim hoff
    unfold search_expenses
    simp [not_lt.mpr hlim, List.length_take, List.length_drop,
      List.length_insertionSort]

/-- First row of the spec's worked example (2025-06-01, 50, food). -/
def eA1 : Expense := ⟨1, "2025-06-01", 50, "food", "", "", 0, "EUR", ""⟩

/-- Second row of the spec's worked example (2025-06-15, 30, food). -/
def eA2 : Expense := ⟨2, "2025-06-15", 30, "food", "", "", 0, "EUR", ""⟩

/-- Third row of the spec's worked example (2025-06-20, 20, transport). -/
def eA3 : Expense := ⟨3, "2025-06-20", 20, "transport", "", "", 0, "EUR", ""⟩

/-- Three-row ledger used as a concrete search and analytics input. -/
def ledgerA : List Expense := [eA1, eA2, eA3]

/-- Witness for C2: no filters over a 3-row ledger with `limit = 2`,
`offset = 1` gives `total_count = 3` and a page of `min 2 (3 - 1) = 2`
rows. -/
theorem search_total_count_pagination_witness :
    (search_expenses noFilters 2 1 ledgerA).total_count = ledgerA.length ∧
    (search_expenses noFilters 2 1 ledgerA).results.length
      = min (2 : Int).toNat
          ((search_expenses noFilters 2 1 ledgerA).total_count - (1 : Int).toNat) :=
  ⟨(search_total_count_pagination noFilters 2 1 ledgerA).2.2.2.1,
   (search_total_count_pagination noFilters 2 1 ledgerA).2.2.2.2
     (by norm_num) (by norm_num)⟩

/-- Counterexample for C2 as stated: with a negative `limit` (allowed by
the claim's "every limit/offset") SQLite returns all remaining rows, so
the page length is not `min(limit, N - offset)`. -/
theorem search_negative_limit_counterexample :
    ((search_expenses noFilters (-1) 0 ledgerA).results.length : ℤ)
      ≠ min (-1 : ℤ) ((ledgerA.length : ℤ) - 0) := by
  decide

/-- C9: `edit_expense` on a missing id, `edit_expense` with no fields to
update, and `delete_expense` on a missing id each return a
`status = "error"` record instead of raising, and in every such error
case the ledger is returned unchanged. -/
theorem edit_delete_error_atomicity :
    ∀ (ledger : List Expense) (id : Nat) (u : UpdateFields),
      ((∀ r ∈ ledger, r.id ≠ id) →
        (edit_expense ledger id u).1.status = "error" ∧
        (edit_expense ledger id u).2 = ledger ∧
        (delete_expense ledger id).1.status = "error" ∧
        (delete_expense ledger id).2 = ledger) ∧
      (hasUpdate u = false →
        (edit_expense ledger id u).1.status = "error" ∧
        (edit_expense ledger id u).2 = ledger) := by
  intro ledger id u
  constructor
  · intro h
    have hnil : ledger.filter (fun r => r.id == id) = [] := by
      rw [List.filter_eq_nil_iff]
      intro a ha
      simpa using h a ha
    refine ⟨?_, ?_, ?_, ?_⟩ <;> simp [edit_expense, delete_expense, hnil]
  · intro h
    by_cases he : (ledger.filter (fun r => r.id == id)).isEmpty = true <;>
      simp [edit_expense, he, h]

/-- Single non-deductible row used as a concrete CRUD and filter input. -/
def eB1 : Expense := ⟨1, "2025-03-05", 10, "food", "", "lunch", 0, "EUR", ""⟩

/-- One-row ledger used as a concrete CRUD input. -/
def ledgerB : List Expense := [eB1]

/-- Witness for C9: id 2 is absent from `ledgerB`, and an update record
with no fields set, so both error paths fire and leave the ledger
intact. -/
theorem edit_delete_error_atomicity_witness :
    ((edit_expense ledgerB 2 {}).1.status = "error" ∧
      (edit_expense ledgerB 2 {}).2 = ledgerB ∧
      (delete_expense ledgerB 2).1.status = "error" ∧
      (delete_expense ledgerB 2).2 = ledgerB) ∧
    ((edit_expense ledgerB 1 {}).1.status = "error" ∧
      (edit_expense ledgerB 1 {}).2 = ledgerB) :=
  ⟨(edit_delete_error_atomicity ledgerB 2 {}).1 (by decide),
   (edit_delete_error_atomicity ledgerB 1 {}).2 rfl⟩

/-- C10: empty-string values for the four string filters are treated as
absent (Python truthiness skips the clause), while the `is not None`
guarded filters `tax_deductible` and `min_amount` are enforced even for
0/0.0: every returned row matches them. -/
theorem search_empty_string_vs_none_filters :
    ∀ (f : SearchFilters) (limit offset : Int) (ledger : List Expense),
      search_expenses { f with category := some "" } limit offset ledger
        = search_expenses { f with category := none } limit offset ledger ∧
      search_expenses { f with start_date := some "" } limit offset ledger
        = search_expenses { f with start_date := none } limit offset ledger ∧
      search_expenses { f with end_date := some "" } limit offset ledger
        = search_expenses { f with end_date := none } limit offset ledger ∧
      search_expenses { f with note_contains := some "" } limit offset ledger
        = search_expenses { f with note_contains := none } limit offset ledger ∧
      (∀ b : Int, f.tax_deductible = some b →
        ∀ r ∈ (search_expenses f limit offset ledger).results,
          r.tax_deductible = b) ∧
      (∀ m : ℚ, f.min_amount = some m →
        ∀ r ∈ (search_expenses f limit offset ledger).results,
          m ≤ r.amount) := by
  intro f limit offset ledger
  have hcat : matchesFilters { f with category := some "" }
      = matchesFilters { f with category := none } := by
    funext r; simp [matchesFilters, strActive]
  have hstart : matchesFilters { f with start_date := some "" }
      = matchesFilters { f with start_date := none } := by
    funext r; simp [matchesFilters, strActive]
  have hend : matchesFilters { f with end_date := some "" }
      = matchesFilters { f with end_date := none } := by
    funext r; simp [matchesFilters, strActive]
  have hnote : matchesFilters { f with note_contains := some "" }
      = matchesFilters { f with note_contains := none } := by
    funext r; simp [matchesFilters, strActive]
  refine ⟨?_, ?_, ?_, ?_, ?_, ?_⟩
  · simp only [search_expenses, hcat]
  · simp only [search_expenses, hstart]
  · simp only [search_expenses, hend]
  · simp only [search_expenses, hnote]
  · intro b hb r hr
    have hm := mem_search_results hr
    simp [matchesFilters, hb, Bool.and_eq_true] at hm
    tauto
  · intro m hm0 r hr
    have hm := mem_search_results hr
    simp [matchesFilters, hm0, Bool.and_eq_true] at hm
    tauto

/-- Filter record requesting `tax_deductible = 0`. -/
def fTax : SearchFilters := { tax_deductible := some 0 }

/-- Filter record requesting `min_amount = 0.0`. -/
def fMin : SearchFilters := { min_amount := some 0 }

/-- Witness for C10: an empty-string category behaves like an absent
category on `ledgerB`, while `tax_deductible = 0` and `min_amount = 0`
are enforced on the returned row. -/
theorem search_empty_string_vs_none_filters_witness :
    (search_expenses { noFilters with category := some "" } 100 0 ledgerB
      = search_expenses { noFilters with category := none } 100 0 ledgerB) ∧
    eB1.tax_deductible = 0 ∧ (0 : ℚ) ≤ eB1.amount := by
  have hmemTax : eB1 ∈ (search_expenses fTax 100 0 ledgerB).results := by decide
  have hmf : matchesFilters fMin eB1 = true := by
    norm_num [matchesFilters, fMin, strActive, eB1]
  have hres : (search_expenses fMin 100 0 ledgerB).results = [eB1] := by
    simp [search_expenses, ledgerB, List.filter_cons, hmf,
      List.insertionSort, List.orderedInsert]
  have hmemMin : eB1 ∈ (search_expenses fMin 100 0 ledgerB).results := by
    rw [hres]; exact List.mem_singleton.mpr rfl
  exact ⟨(search_empty_string_vs_none_filters noFilters 100 0 ledgerB).1,
    (search_empty_string_vs_none_filters fTax 100 0 ledgerB).2.2.2.2.1 0 rfl eB1 hmemTax,
    (search_empty_string_vs_none_filters fMin 100 0 ledgerB).2.2.2.2.2 0 rfl eB1 hmemMin⟩

/-! ## Aggregation engine (`analytics_service.py`) -/

/-- Row of the `summarize` response (`SELECT category, SUM(amount) AS
total_amount ... GROUP BY category ORDER BY category ASC`). -/
structure SummaryRow where
  category : String
  total_amount : ℚ
deriving Repr, DecidableEq

/-- Rows of the ledger selected by `summarize`'s `WHERE` clause. -/
def summarizeRows (start_date end_date : String) (category : Option String)
    (ledger : List Expense) : List Expense :=
  ledger.filter (fun r => inRange start_date end_date r && catMatch category r)

/-- Model of `summarize`: group the selected rows by category, sum the
amounts of each group, order group keys ascending.  `GROUP BY` emits a
group only for keys that occur, so absent categories produce no row.
`SUM(amount)` is returned raw (this query result is not rounded). -/
def summarize (start_date end_date : String) (category : Option String)
    (ledger : List Expense) : List SummaryRow :=
  let rows := summarizeRows start_date end_date category ledger
  (List.insertionSort asciiLe (rows.map (·.category)).dedup).map
    (fun c =>
      { category := c,
        total_amount := sumAmounts (rows.filter (fun r => r.category == c)) })

/-- C5: `summarize` groups the selected rows by category and reports the
per-category sum; the emitted categories are exactly ones holding at
least one matching row (a category with no rows is omitted, never a zero
entry), ordered ascending; and on the three-row example ledger the
June range yields food = 80 before transport = 20. -/
theorem summarize_groups_sorted_no_empty :
    ∀ (start_date end_date : String) (category : Option String)
      (ledger : List Expense),
      List.Pairwise (fun a b => asciiLe a.category b.category)
        (summarize start_date end_date category ledger) ∧
      (∀ row ∈ summarize start_date end_date category ledger,
        ∃ r ∈ summarizeRows start_date end_date category ledger,
          r.category = row.category) ∧
      (∀ row ∈ summarize start_date end_date category ledger,
        row.total_amount = sumAmounts
          ((summarizeRows start_date end_date category ledger).filter
            (fun r => r.category == row.category))) ∧
      summarize "2025-06-01" "2025-06-30" none ledgerA
        = [⟨"food", 80⟩, ⟨"transport", 20⟩] := by
  intro start_date end_date category ledger
  refine ⟨?_, ?_, ?_, ?_⟩
  · unfold summarize
    rw [List.pairwise_map]
    exact List.sorted_insertionSort asciiLe _
  · intro row hrow
    unfold summarize at hrow
    obtain ⟨c, hc, hrc⟩ := List.mem_map.mp hrow
    obtain ⟨r, hr, hcat⟩ := List.mem_map.mp
      (List.mem_dedup.mp ((List.mem_insertionSort asciiLe).mp hc))
    exact ⟨r, hr, by rw [hcat, ← hrc]⟩
  · intro row hrow
    unfold summarize at hrow
    obtain ⟨c, _, hrc⟩ := List.mem_map.mp hrow
    rw [← hrc]
  · have hstep : summarize "2025-06-01" "2025-06-30" none ledgerA
        = [⟨"food", sumAmounts [eA1, eA2]⟩, ⟨"transport", sumAmounts [eA3]⟩] := rfl
    rw [hstep]
    norm_num [sumAmounts, eA1, eA2, eA3]

/-- Witness for C5: the general clauses applied to the concrete example
row for "food". -/
theorem summarize_groups_sorted_no_empty_witness :
    (∃ r ∈ summarizeRows "2025-06-01" "2025-06-30" none ledgerA,
      r.category = "food") ∧
    SummaryRow.mk "food" 80 ∈ summarize "2025-06-01" "2025-06-30" none ledgerA :=
  have hth := summarize_groups_sorted_no_empty "2025-06-01" "2025-06-30" none ledgerA
  have hmem : SummaryRow.mk "food" 80 ∈ summarize "2025-06-01" "2025-06-30" none ledgerA := by
    rw [hth.2.2.2]; exact List.mem_cons_self _ _
  ⟨hth.2.1 ⟨"food", 80⟩ hmem, hmem⟩

/-! ## Month comparison (`compare_months` and `utils/dates.py`) -/

/-- Gregorian leap-year test used by `calendar.monthrange`. -/
def isLeapYear (y : Nat) : Prop :=
  (y % 4 = 0 ∧ y % 100 ≠ 0) ∨ y % 400 = 0

instance (y : Nat) : Decidable (isLeapYear y) := by
  unfold isLeapYear; infer_instance

/-- Number of days of a month (`calendar.monthrange(year, month)[1]`). -/
def daysInMonth (y m : Nat) : Nat :=
  if m = 2 then (if isLeapYear y then 29 else 28)
  else if m = 4 ∨ m = 6 ∨ m = 9 ∨ m = 11 then 30 else 31

/-- Zero-padded two-digit rendering (`f"{n:02d}"` for 0 ≤ n < 100). -/
def pad2 (n : Nat) : String :=
  if n < 10 then "0" ++ toString n else toString n

/-- Zero-padded four-digit rendering (`f"{n:04d}"` for 0 ≤ n). -/
def pad4 (n : Nat) : String :=
  if n < 10 then "000" ++ toString n
  else if n < 100 then "00" ++ toString n
  else if n < 1000 then "0" ++ toString n
  else toString n

/-- ISO day token `f"{y:04d}-{m:02d}-{d:02d}"`. -/
def fmtDay (y m d : Nat) : String :=
  pad4 y ++ "-" ++ pad2 m ++ "-" ++ pad2 d

/-- Model of `month_start_end`: first and last day of a calendar month,
as ISO day strings. -/
def month_start_end (y m : Nat) : String × String :=
  (fmtDay y m 1, fmtDay y m (daysInMonth y m))

/-- Raw monthly total of `compare_months`: `SELECT SUM(amount) ...
WHERE date BETWEEN ? AND ?` over the month's day bounds, with the
optional category clause, and `NULL`-on-empty coerced by `or 0`. -/
def monthTotal (y m : Nat) (category : Option String) (ledger : List Expense) : ℚ :=
  sumAmounts (ledger.filter (fun r =>
    inRange (month_start_end y m).1 (month_start_end y m).2 r && catMatch category r))

/-- Shape of the `compare_months` response (month labels echoed back are
omitted; the four monetary fields are kept). -/
structure CompareResult where
  total1 : ℚ
  total2 : ℚ
  difference : ℚ
  percent_change : ℚ
deriving Repr, DecidableEq

/-- Model of `compare_months`: resolve both months to day bounds, sum
each, compute `diff = total2 - total1` and
`pct = diff / total1 * 100 if total1 > 0 else 0`, then round each output
field to 2 decimals. -/
def compare_months (y1 m1 y2 m2 : Nat) (category : Option String)
    (ledger : List Expense) : CompareResult :=
  let t1 := monthTotal y1 m1 category ledger
  let t2 := monthTotal y2 m2 category ledger
  let diff := t2 - t1
  let pct := if 0 < t1 then diff / t1 * 100 else 0
  { total1 := round2 t1, total2 := round2 t2,
    difference := round2 diff, percent_change := round2 pct }

/-- C3: `compare_months` reports `difference = total2 - total1` (rounded
at the boundary); when the raw first-month total is positive the percent
change is `difference / total1 * 100` (rounded), and when it is zero or
negative — including an empty first month, whose `SUM` is coerced to 0 —
the percent change is exactly 0, with no division performed. -/
theorem compare_months_percent_guard :
    ∀ (y1 m1 y2 m2 : Nat) (category : Option String) (ledger : List Expense),
      (compare_months y1 m1 y2 m2 category ledger).difference
          = round2 (monthTotal y2 m2 category ledger
              - monthTotal y1 m1 category ledger) ∧
      (0 < monthTotal y1 m1 category ledger →
        (compare_months y1 m1 y2 m2 category ledger).percent_change
          = round2 ((monthTotal y2 m2 category ledger
              - monthTotal y1 m1 category ledger)
                / monthTotal y1 m1 category ledger * 100)) ∧
      (monthTotal y1 m1 category ledger ≤ 0 →
        (compare_months y1 m1 y2 m2 category ledger).percent_change = 0) := by
  intro y1 m1 y2 m2 category ledger
  refine ⟨rfl, ?_, ?_⟩
  · intro h
    simp only [compare_months, if_pos h]
  · intro h
    simp only [compare_months, if_neg (not_lt.mpr h)]
    exact round2_zero

/-- Witness for C3: comparing an empty 2025-01 against a non-empty
2025-02 of `ledgerB` yields percent change exactly 0. -/
theorem compare_months_percent_guard_witness :
    monthTotal 2025 1 none ledgerB ≤ 0 ∧
    (compare_months 2025 1 2025 2 none ledgerB).percent_change = 0 :=
  have h0 : monthTotal 2025 1 none ledgerB = 0 := rfl
  ⟨le_of_eq h0,
    (compare_months_percent_guard 2025 1 2025 2 none ledgerB).2.2 (le_of_eq h0)⟩

/-! ## Category analytics (`category_analytics`) -/

/-- Rows of the ledger selected by a plain `date BETWEEN ? AND ?` range
query. -/
def rangeRows (start_date end_date : String) (ledger : List Expense) : List Expense :=
  ledger.filter (inRange start_date end_date)

theorem sumAmounts_nil : sumAmounts [] = 0 := rfl

theorem sumAmounts_cons (a : Expense) (l : List Expense) :
    sumAmounts (a :: l) = a.amount + sumAmounts l := by
  simp [sumAmounts]

theorem sumAmounts_filter_add_not (p : Expense → Bool) (l : List Expense) :
    sumAmounts (l.filter p) + sumAmounts (l.filter (fun r => !(p r)))
      = sumAmounts l := by
  induction l with
  | nil => simp [sumAmounts]
  | cons a t ih =>
    by_cases h : p a <;>
      simp only [List.filter_cons, h, Bool.not_true, Bool.not_false,
        ite_true, ite_false, if_pos, if_neg, sumAmounts_cons, Bool.false_eq_true,
        Bool.true_eq_false] <;>
      linarith

/-- Per-category `(category, SUM(amount))` pairs produced by a
`GROUP BY category` over the given rows (one pair per occurring
category). -/
def catTotalPairs (rows : List Expense) : List (String × ℚ) :=
  (rows.map (·.category)).dedup.map
    (fun c => (c, sumAmounts (rows.filter (fun r => r.category == c))))

/-- Group sums over a complete, duplicate-free key list add up to the sum
over all rows: the `GROUP BY` partition is lossless. -/
theorem sum_over_keys (keys : List String) :
    ∀ rows : List Expense, keys.Nodup → (∀ r ∈ rows, r.category ∈ keys) →
      (keys.map (fun c => sumAmounts (rows.filter (fun r => r.category == c)))).sum
        = sumAmounts rows := by
  induction keys with
  | nil =>
    intro rows _ hall
    have hrows : rows = [] :=
      List.eq_nil_iff_forall_not_mem.mpr (fun r hr => by simpa using hall r hr)
    simp [hrows, sumAmounts]
  | cons k ks ih =>
    intro rows hnd hall
    have hsplit := sumAmounts_filter_add_not (fun r => r.category == k) rows
    have hks : ∀ r ∈ rows.filter (fun r => !(r.category == k)), r.category ∈ ks := by
      intro r hr
      obtain ⟨hrrows, hneq⟩ := List.mem_filter.mp hr
      have hmem := hall r hrrows
      simp only [Bool.not_eq_true', beq_eq_false_iff_ne, ne_eq] at hneq
      rcases List.mem_cons.mp hmem with h | h
      · exact absurd h hneq
      · exact h
    have htail : ∀ c ∈ ks,
        rows.filter (fun r => r.category == c)
          = (rows.filter (fun r => !(r.category == k))).filter
              (fun r => r.category == c) := by
      intro c hc
      have hck : c ≠ k := by
        intro hckeq
        exact (List.nodup_cons.mp hnd).1 (hckeq ▸ hc)
      rw [List.filter_filter]
      apply List.filter_congr
      intro r _
      by_cases hrc : r.category = c
      · simp [hrc, hck]
      · simp [hrc]
    calc (List.map (fun c => sumAmounts (rows.filter (fun r => r.category == c)))
            (k :: ks)).sum
        = sumAmounts (rows.filter (fun r => r.category == k))
            + (ks.map (fun c =>
                sumAmounts (rows.filter (fun r => r.category == c)))).sum := by
          simp
      _ = sumAmounts (rows.filter (fun r => r.category == k))
            + (ks.map (fun c =>
                sumAmounts ((rows.filter (fun r => !(r.category == k))).filter
                  (fun r => r.category == c)))).sum := by
          rw [List.map_congr_left (fun c hc => by rw [htail c hc])]
      _ = sumAmounts (rows.filter (fun r => r.category == k))
            + sumAmounts (rows.filter (fun r => !(r.category == k))) := by
          rw [ih _ (List.nodup_cons.mp hnd).2 hks]
      _ = sumAmounts rows := hsplit

/-- Sum of the group totals of `catTotalPairs` is the total over all
rows. -/
theorem catTotalPairs_sum (rows : List Expense) :
    ((catTotalPairs rows).map (·.2)).sum = sumAmounts rows := by
  unfold catTotalPairs
  rw [List.map_map]
  exact sum_over_keys _ rows (List.nodup_dedup _)
    (fun r hr => List.mem_dedup.mpr (List.mem_map.mpr ⟨r, hr, rfl⟩))

/-- Rounding each summand moves a list sum by at most `1/200` per
element. -/
theorem abs_sum_map_round2_sub (l : List ℚ) :
    |(l.map round2).sum - l.sum| ≤ (l.length : ℚ) / 200 := by
  induction l with
  | nil => simp
  | cons x t ih =>
    have h1 := abs_round2_sub_le x
    have h2 : |round2 x + (t.map round2).sum - (x + t.sum)|
        ≤ |round2 x - x| + |(t.map round2).sum - t.sum| := by
      have := abs_add (round2 x - x) ((t.map round2).sum - t.sum)
      calc |round2 x + (t.map round2).sum - (x + t.sum)|
          = |(round2 x - x) + ((t.map round2).sum - t.sum)| := by ring_nf
        _ ≤ _ := this
    simp only [List.map_cons, List.sum_cons, List.length_cons]
    push_cast
    calc |round2 x + (t.map round2).sum - (x + t.sum)|
        ≤ |round2 x - x| + |(t.map round2).sum - t.sum| := h2
      _ ≤ 1 / 200 + (t.length : ℚ) / 200 := add_le_add h1 ih
      _ = ((t.length : ℚ) + 1) / 200 := by ring

/-- Descending order on `(category, total)` pairs used by
`ORDER BY total DESC`. -/
def byTotalDesc (a b : String × ℚ) : Prop := b.2 ≤ a.2

instance : DecidableRel byTotalDesc := fun a b => by
  unfold byTotalDesc; infer_instance

instance : IsTrans (String × ℚ) byTotalDesc :=
  ⟨fun _ _ _ hab hbc => le_trans hbc hab⟩

instance : IsTotal (String × ℚ) byTotalDesc :=
  ⟨fun a b => le_total b.2 a.2⟩

/-- Per-category entry of the `category_analytics` response. -/
structure CategoryEntry where
  category : String
  count : Nat
  total : ℚ
  average : ℚ
  min_amount : ℚ
  max_amount : ℚ
  percentage : ℚ
deriving Repr, DecidableEq

/-- Shape of the `category_analytics` response (echoed dates omitted). -/
structure CAResult where
  total_spent : ℚ
  categories : List CategoryEntry
deriving Repr, DecidableEq

/-- Model of `category_analytics`: overall range total, per-category
aggregates ordered by raw group total descending, each group's
percentage computed from the raw totals (`total/total_spent*100` when
`total_spent > 0`, else 0), every monetary field rounded to 2 decimals
when placed into the response. -/
def category_analytics (start_date end_date : String)
    (ledger : List Expense) : CAResult :=
  let rows := rangeRows start_date end_date ledger
  let grand := sumAmounts rows
  let sorted := List.insertionSort byTotalDesc (catTotalPairs rows)
  { total_spent := round2 grand,
    categories := sorted.map (fun p =>
      let g := rows.filter (fun r => r.category == p.1)
      { category := p.1,
        count := g.length,
        total := round2 p.2,
        average := round2 (p.2 / (g.length : ℚ)),
        min_amount := round2 (((g.map (·.amount)).min?).getD 0),
        max_amount := round2 (((g.map (·.amount)).max?).getD 0),
        percentage := round2 (if 0 < grand then p.2 / grand * 100 else 0) }) }

theorem category_analytics_percentages_eq (start_date end_date : String)
    (ledger : List Expense) :
    ((category_analytics start_date end_date ledger).categories.map (·.percentage))
      = (List.insertionSort byTotalDesc
          (catTotalPairs (rangeRows start_date end_date ledger))).map
            (fun p => round2 (if 0 < sumAmounts (rangeRows start_date end_date ledger)
              then p.2 / sumAmounts (rangeRows start_date end_date ledger) * 100
              else 0)) := by
  unfold category_analytics
  simp [List.map_map, Function.comp]

theorem category_analytics_length (start_date end_date : String)
    (ledger : List Expense) :
    (category_analytics start_date end_date ledger).categories.length
      = (catTotalPairs (rangeRows start_date end_date ledger)).length := by
  unfold category_analytics
  simp [(List.perm_insertionSort byTotalDesc _).length_eq]

/-- C4: every percentage is 0 when the range's raw grand total is zero or
negative; category entries are ordered by total descending; and when the
grand total is positive the emitted percentages sum to 100 up to the
accumulated rounding tolerance of 1/200 per category. -/
theorem category_analytics_percentage_spec :
    ∀ (start_date end_date : String) (ledger : List Expense),
      (sumAmounts (rangeRows start_date end_date ledger) ≤ 0 →
        ∀ en ∈ (category_analytics start_date end_date ledger).categories,
          en.percentage = 0) ∧
      List.Pairwise (fun a b => b.total ≤ a.total)
        (category_analytics start_date end_date ledger).categories ∧
      (0 < sumAmounts (rangeRows start_date end_date ledger) →
        |((category_analytics start_date end_date ledger).categories.map
            (·.percentage)).sum - 100|
          ≤ ((category_analytics start_date end_date ledger).categories.length : ℚ)
              / 200) := by
  intro start_date end_date ledger
  refine ⟨?_, ?_, ?_⟩
  · intro hle en hen
    unfold category_analytics at hen
    obtain ⟨p, _, hp⟩ := List.mem_map.mp hen
    rw [← hp]
    simp only [if_neg (not_lt.mpr hle)]
    exact round2_zero
  · unfold category_analytics
    simp only
    rw [List.pairwise_map]
    exact (List.sorted_insertionSort byTotalDesc _).imp
      (fun hab => round2_mono hab)
  · intro hpos
    have hne : sumAmounts (rangeRows start_date end_date ledger) ≠ 0 := ne_of_gt hpos
    rw [category_analytics_percentages_eq, category_analytics_length]
    set rows := rangeRows start_date end_date ledger with hrows
    set grand := sumAmounts rows with hgrand
    set pairs := catTotalPairs rows with hpairs
    have hperm : (List.insertionSort byTotalDesc pairs).Perm pairs :=
      List.perm_insertionSort byTotalDesc pairs
    have hifs : ∀ p : String × ℚ,
        round2 (if 0 < grand then p.2 / grand * 100 else 0)
          = round2 (p.2 * (100 / grand)) := by
      intro p
      rw [if_pos hpos]
      ring_nf
    have hsum2 : ((List.insertionSort byTotalDesc pairs).map (fun p : String × ℚ =>
        round2 (if 0 < grand then p.2 / grand * 100 else 0))).sum
          = ((pairs.map (fun p : String × ℚ => p.2 * (100 / grand))).map round2).sum := by
      rw [List.map_congr_left (fun p _ => hifs p)]
      calc ((List.insertionSort byTotalDesc pairs).map (fun p : String × ℚ =>
              round2 (p.2 * (100 / grand)))).sum
          = (pairs.map (fun p : String × ℚ =>
              round2 (p.2 * (100 / grand)))).sum := (hperm.map _).sum_eq
        _ = ((pairs.map (fun p : String × ℚ => p.2 * (100 / grand))).map round2).sum := by
            rw [List.map_map]
            rfl
    have hraw : (pairs.map (fun p : String × ℚ => p.2 * (100 / grand))).sum = 100 := by
      rw [List.sum_map_mul_right, hpairs, catTotalPairs_sum rows, ← hgrand]
      field_simp
    have hbound := abs_sum_map_round2_sub
      (pairs.map (fun p : String × ℚ => p.2 * (100 / grand)))
    rw [hraw, List.length_map] at hbound
    rw [hsum2]
    exact hbound


/-- Witness for C4: the example ledger has positive grand total 100 and
its percentages sum to 100 within tolerance; an empty ledger discharges
the non-positive branch. -/
theorem category_analytics_percentage_spec_witness :
    (0 < sumAmounts (rangeRows "2025-06-01" "2025-06-30" ledgerA) ∧
      |((category_analytics "2025-06-01" "2025-06-30" ledgerA).categories.map
          (·.percentage)).sum - 100|
        ≤ ((category_analytics "2025-06-01" "2025-06-30" ledgerA).categories.length : ℚ)
            / 200) ∧
    (sumAmounts (rangeRows "2025-01-01" "2025-12-31" ([] : List Expense)) ≤ 0 ∧
      ∀ en ∈ (category_analytics "2025-01-01" "2025-12-31"
          ([] : List Expense)).categories,
        en.percentage = 0) := by
  have h1 : rangeRows "2025-06-01" "2025-06-30" ledgerA = ledgerA := by decide
  have hpos : 0 < sumAmounts (rangeRows "2025-06-01" "2025-06-30" ledgerA) := by
    rw [h1]
    norm_num [sumAmounts, ledgerA, eA1, eA2, eA3]
  have hle : sumAmounts (rangeRows "2025-01-01" "2025-12-31" ([] : List Expense)) ≤ 0 :=
    le_of_eq rfl
  exact ⟨⟨hpos,
      (category_analytics_percentage_spec "2025-06-01" "2025-06-30" ledgerA).2.2 hpos⟩,
    ⟨hle,
      (category_analytics_percentage_spec "2025-01-01" "2025-12-31" []).1 hle⟩⟩

/-! ## Trend analysis (`analyze_trends`) -/

/-- Grouping granularity accepted by `analyze_trends` (`Literal["day",
"week", "month"]`). -/
inductive GroupBy
  | day
  | week
  | month
deriving Repr, DecidableEq

/-- Decimal digits to a number (`int(...)` on an ASCII digit run). -/
def digitsToNat (l : List Char) : Nat :=
  l.foldl (fun acc c => acc * 10 + (c.toNat - 48)) 0

/-- Split an ISO `YYYY-MM-DD` token into its numeric components (the
services only feed well-formed dates here; a malformed token would make
Python raise before this point). -/
def parseDate (s : String) : Nat × Nat × Nat :=
  match s.data.splitOn '-' with
  | [y, m, d] => (digitsToNat y, digitsToNat m, digitsToNat d)
  | _ => (0, 0, 0)

/-- Number of leap years in `1..n` (Gregorian). -/
def leapsBefore (n : Nat) : Nat :=
  n / 4 - n / 100 + n / 400

/-- Days in the months strictly before month `m` of year `y`. -/
def daysBeforeMonth (y m : Nat) : Nat :=
  ((List.range (m - 1)).map (fun i => daysInMonth y (i + 1))).sum

/-- One-based day of year. -/
def dayOfYear (y m d : Nat) : Nat :=
  daysBeforeMonth y m + d

/-- Proleptic-Gregorian day count with 0001-01-01 = day 1 (a Monday). -/
def dayNumber (y m d : Nat) : Nat :=
  365 * (y - 1) + leapsBefore (y - 1) + dayOfYear y m d

/-- Day of week with Sunday = 0 (the C `tm_wday` convention). -/
def weekdaySun0 (y m d : Nat) : Nat :=
  dayNumber y m d % 7

/-- Week-of-year with Monday as first day, days before the first Monday
in week 00 — the C `strftime` / SQLite `%W` rule. -/
def weekOfYearMon (y m d : Nat) : Nat :=
  (dayOfYear y m d - 1 + 7 - ((weekdaySun0 y m d + 6) % 7)) / 7

/-- Period key of a row: the date itself for `day`,
`strftime('%Y-W%W', date)` for `week`, `strftime('%Y-%m', date)` for
`month`. -/
def periodKey : GroupBy → Expense → String
  | .day, r => r.date
  | .week, r =>
      let p := parseDate r.date
      pad4 p.1 ++ "-W" ++ pad2 (weekOfYearMon p.1 p.2.1 p.2.2)
  | .month, r => String.mk (r.date.data.take 7)

/-- Per-period entry of the `analyze_trends` response. -/
structure TrendEntry where
  period : String
  expense_count : Nat
  total : ℚ
  average : ℚ
  min_amount : ℚ
  max_amount : ℚ
deriving Repr, DecidableEq

/-- Model of `analyze_trends`: group the range's rows by the chosen
period key (`GROUP BY period ORDER BY period ASC`), emitting one entry
per occurring key with count/sum/avg/min/max, monetary fields rounded.
The response's echoed `group_by`/`start_date`/`end_date` fields are
omitted; the `trends` list is returned. -/
def analyze_trends (start_date end_date : String) (g : GroupBy)
    (ledger : List Expense) : List TrendEntry :=
  let rows := rangeRows start_date end_date ledger
  (List.insertionSort asciiLe ((rows.map (periodKey g)).dedup)).map
    (fun k =>
      let grp := rows.filter (fun r => periodKey g r == k)
      { period := k,
        expense_count := grp.length,
        total := round2 (sumAmounts grp),
        average := round2 (sumAmounts grp / (grp.length : ℚ)),
        min_amount := round2 (((grp.map (·.amount)).min?).getD 0),
        max_amount := round2 (((grp.map (·.amount)).max?).getD 0) })

/-- C8: every period emitted by `analyze_trends` contains at least one
row (`GROUP BY` produces keys only for occurring values, so an
`expense_count` of 0 is impossible), and the periods appear in ascending
period-key order. -/
theorem analyze_trends_nonempty_sorted :
    ∀ (start_date end_date : String) (g : GroupBy) (ledger : List Expense),
      (∀ t ∈ analyze_trends start_date end_date g ledger,
        1 ≤ t.expense_count) ∧
      List.Pairwise (fun a b => asciiLe a.period b.period)
        (analyze_trends start_date end_date g ledger) := by
  intro start_date end_date g ledger
  constructor
  · intro t ht
    unfold analyze_trends at ht
    obtain ⟨k, hk, hkt⟩ := List.mem_map.mp ht
    obtain ⟨r, hr, hrk⟩ := List.mem_map.mp
      (List.mem_dedup.mp ((List.mem_insertionSort asciiLe).mp hk))
    have hmem : r ∈ (rangeRows start_date end_date ledger).filter
        (fun r2 => periodKey g r2 == k) :=
      List.mem_filter.mpr ⟨hr, beq_iff_eq.mpr hrk⟩
    have hlen : 0 < ((rangeRows start_date end_date ledger).filter
        (fun r2 => periodKey g r2 == k)).length :=
      List.length_pos.mpr (List.ne_nil_of_mem hmem)
    rw [← hkt]
    exact hlen
  · unfold analyze_trends
    rw [List.pairwise_map]
    exact List.sorted_insertionSort asciiLe _

/-- Witness for C8: day-grouped trends of the one-row `ledgerB` produce a
single period entry holding that row. -/
theorem analyze_trends_nonempty_sorted_witness :
    analyze_trends "2025-03-01" "2025-03-31" GroupBy.day ledgerB
      = [⟨"2025-03-05", 1, 10, 10, 10, 10⟩] ∧
    1 ≤ (TrendEntry.mk "2025-03-05" 1 10 10 10 10).expense_count := by
  have hres0 : analyze_trends "2025-03-01" "2025-03-31" GroupBy.day ledgerB
      = [⟨"2025-03-05", 1, round2 (sumAmounts [eB1]),
          round2 (sumAmounts [eB1] / (([eB1].length : Nat) : ℚ)),
          round2 ((([eB1].map (·.amount)).min?).getD 0),
          round2 ((([eB1].map (·.amount)).max?).getD 0)⟩] := rfl
  have hres : analyze_trends "2025-03-01" "2025-03-31" GroupBy.day ledgerB
      = [⟨"2025-03-05", 1, 10, 10, 10, 10⟩] := by
    rw [hres0]
    norm_num [sumAmounts, eB1, round2, round_eq, List.min?, List.max?,
      TrendEntry.mk.injEq]
  refine ⟨hres, ?_⟩
  exact (analyze_trends_nonempty_sorted "2025-03-01" "2025-03-31"
      GroupBy.day ledgerB).1
    ⟨"2025-03-05", 1, 10, 10, 10, 10⟩ (by rw [hres]; exact List.mem_singleton.mpr rfl)

/-! ## Forecasting (`forecast_expenses` and `add_months`) -/

/-- Model of `add_months` over the integers: Python's `//` and `%` are
floor division and a non-negative remainder for the positive divisor 12,
which is `Int.ediv` / `Int.emod`. -/
def add_months (y m delta : Int) : Int × Int :=
  let total := y * 12 + (m - 1) + delta
  (total.ediv 12, total.emod 12 + 1)

/-- Zero-padded three-digit rendering. -/
def pad3 (n : Nat) : String :=
  if n < 10 then "00" ++ toString n
  else if n < 100 then "0" ++ toString n
  else toString n

/-- Python `f"{n:04d}"` for a possibly negative integer: a minus sign
counts toward the width, so the digit run is padded to 3. -/
def pad4Int (n : Int) : String :=
  if n < 0 then "-" ++ pad3 n.natAbs else pad4 n.toNat

/-- Month label `f"{y:04d}-{m:02d}"` (the month from `add_months` is
always in `1..12`, hence non-negative). -/
def fmtYM (y m : Int) : String :=
  pad4Int y ++ "-" ++ pad2 m.toNat

/-- `strftime('%Y-%m', date)` truncation used by the history subquery. -/
def monthKey (r : Expense) : String :=
  String.mk (r.date.data.take 7)

/-- One projected month (`{"month": ..., "projected_amount": ...}`; the
total forecast's entries name the amount `projected_total`, with the same
shape). -/
structure Projection where
  month : String
  projected_amount : ℚ
deriving Repr, DecidableEq

/-- Per-category block of the `forecast_expenses` response. -/
structure CategoryForecast where
  category : String
  historical_avg_monthly : ℚ
  projections : List Projection
deriving Repr, DecidableEq

/-- Shape of the `forecast_expenses` response (echo fields
`based_on_months` / `history_period` / `forecast_months` omitted). -/
structure ForecastResult where
  total_monthly_average : ℚ
  total_projections : List Projection
  category_forecasts : List CategoryForecast
deriving Repr, DecidableEq

/-- Model of `forecast_expenses`: history window from the first day of
the month `lookback` months before today through today; per category the
average of its per-month sums over months with activity; `months_ahead`
future months each projected at that constant (rounded) average; the
total forecast sums the already-rounded category averages.  `today` is
`datetime.now()`, passed explicitly. -/
def forecast_expenses (todayY todayM todayD : Nat) (months_ahead lookback : Int)
    (ledger : List Expense) : ForecastResult :=
  let hist := add_months todayY todayM (-lookback)
  let history_start := fmtYM hist.1 hist.2 ++ "-01"
  let history_end := fmtDay todayY todayM todayD
  let rows := ledger.filter (inRange history_start history_end)
  let futureMonths := (List.range months_ahead.toNat).map
    (fun i =>
      let p := add_months todayY todayM ((i : Int) + 1)
      fmtYM p.1 p.2)
  let category_forecasts := ((rows.map (·.category)).dedup).map (fun c =>
    let crows := rows.filter (fun r => r.category == c)
    let months := (crows.map monthKey).dedup
    let avg := (months.map (fun mo =>
        sumAmounts (crows.filter (fun r => monthKey r == mo)))).sum
          / (months.length : ℚ)
    { category := c,
      historical_avg_monthly := round2 avg,
      projections := futureMonths.map
        (fun mo => { month := mo, projected_amount := round2 avg }) })
  let total_avg := (category_forecasts.map (·.historical_avg_monthly)).sum
  { total_monthly_average := round2 total_avg,
    total_projections := futureMonths.map
      (fun mo => { month := mo, projected_amount := round2 total_avg }),
    category_forecasts := category_forecasts }

/-- Row inside the current month, used to exercise a month-to-date
history window. -/
def eC1 : Expense := ⟨1, "2025-06-10", 10, "food", "", "", 0, "EUR", ""⟩

/-- One-row ledger for the forecast counterexample. -/
def ledgerC7 : List Expense := [eC1]

/-- Counterexample for C7 as stated: `lookback_months = 0` is
non-positive, yet with today = 2025-06-15 the history window is the
month-to-date range 2025-06-01..2025-06-15, which contains a row, so
three projections per category (and three total projections) are
produced rather than none. -/
theorem forecast_nonpositive_lookback_counterexample :
    (forecast_expenses 2025 6 15 3 0 ledgerC7).category_forecasts.map
        (fun cf => cf.projections.length) = [3] ∧
    (forecast_expenses 2025 6 15 3 0 ledgerC7).total_projections.length = 3 := by
  decide

/-- C7 (amended): `forecast_expenses` is total over all integer inputs,
and a non-positive `months_ahead` yields no projections (every projection
list is empty).  A non-positive `lookback_months` does *not* by itself
suppress projections: `lookback = 0` keeps a month-to-date history window
that can contain rows. -/
theorem forecast_months_ahead_nonpositive :
    ∀ (todayY todayM todayD : Nat) (months_ahead lookback : Int)
      (ledger : List Expense),
      months_ahead ≤ 0 →
        (forecast_expenses todayY todayM todayD months_ahead lookback
            ledger).total_projections = [] ∧
        ∀ cf ∈ (forecast_expenses todayY todayM todayD months_ahead lookback
            ledger).category_forecasts,
          cf.projections = [] := by
  intro todayY todayM todayD months_ahead lookback ledger hma
  have h0 : months_ahead.toNat = 0 := Int.toNat_of_nonpos hma
  unfold forecast_expenses
  simp only [h0, List.range_zero, List.map_nil]
  constructor
  · rfl
  · intro cf hcf
    obtain ⟨c, _, hc⟩ := List.mem_map.mp hcf
    rw [← hc]
    rfl

/-- Witness for C7 (amended): `months_ahead = 0` over `ledgerC7` yields
empty projection lists. -/
theorem forecast_months_ahead_nonpositive_witness :
    (forecast_expenses 2025 6 15 0 6 ledgerC7).total_projections = [] ∧
    ∀ cf ∈ (forecast_expenses 2025 6 15 0 6 ledgerC7).category_forecasts,
      cf.projections = [] :=
  forecast_months_ahead_nonpositive 2025 6 15 0 6 ledgerC7 (by norm_num)

/-! ## Quick statistics (`get_statistics`) -/

/-- Inclusive day span `(end - start).days + 1` computed from parsed ISO
dates (`datetime.strptime` subtraction). -/
def daysSpan (start_date end_date : String) : Int :=
  let p := parseDate start_date
  let q := parseDate end_date
  (dayNumber q.1 q.2.1 q.2.2 : Int) - (dayNumber p.1 p.2.1 p.2.2 : Int) + 1

/-- Shape of the `get_statistics` response (echoed dates omitted; the
nested `most_expensive_day` / `top_category` dictionaries are flattened
into label and total fields). -/
structure StatsResult where
  total_expenses : Nat
  total_spent : ℚ
  average_expense : ℚ
  min_expense : ℚ
  max_expense : ℚ
  daily_average : ℚ
  most_expensive_day_date : Option String
  most_expensive_day_total : ℚ
  top_category_name : Option String
  top_category_total : ℚ
deriving Repr, DecidableEq

/-- Model of `get_statistics`: overall count/sum/avg/min/max over the
range, `daily_average = total / day_span` guarded to 0 for a non-positive
span, and the top day/category by summed amount (`ORDER BY ... DESC
LIMIT 1`, absent when the range holds no rows). -/
def get_statistics (start_date end_date : String)
    (ledger : List Expense) : StatsResult :=
  let rows := rangeRows start_date end_date ledger
  let total := sumAmounts rows
  let days_diff := daysSpan start_date end_date
  let bestDay := (List.insertionSort byTotalDesc ((rows.map (·.date)).dedup.map
      (fun d => (d, sumAmounts (rows.filter (fun r => r.date == d)))))).head?
  let bestCat := (List.insertionSort byTotalDesc (catTotalPairs rows)).head?
  { total_expenses := rows.length,
    total_spent := round2 total,
    average_expense :=
      round2 (if rows.length = 0 then 0 else total / (rows.length : ℚ)),
    min_expense := round2 (((rows.map (·.amount)).min?).getD 0),
    max_expense := round2 (((rows.map (·.amount)).max?).getD 0),
    daily_average :=
      round2 (if 0 < days_diff then total / (days_diff : ℚ) else 0),
    most_expensive_day_date := bestDay.map (·.1),
    most_expensive_day_total :=
      match bestDay with
      | some p => round2 p.2
      | none => 0,
    top_category_name := bestCat.map (·.1),
    top_category_total :=
      match bestCat with
      | some p => round2 p.2
      | none => 0 }

/-! ## Tax summary (`tax_summary`) -/

/-- Row order of the tax query's `ORDER BY date ASC`. -/
def byDateAsc (a b : Expense) : Prop := asciiLe a.date b.date

instance : DecidableRel byDateAsc := fun a b => by
  unfold byDateAsc; infer_instance

/-- Per-bucket block of the `tax_summary` response. -/
structure TaxBucketEntry where
  tax_category : String
  total : ℚ
  count : Nat
  expenses : List Expense
deriving Repr, DecidableEq

/-- Shape of the `tax_summary` response (`year` / `filter_category`
echoes omitted). -/
structure TaxSummary where
  grand_total : ℚ
  total_count : Nat
  summary : List TaxBucketEntry
deriving Repr, DecidableEq

/-- Model of `tax_summary`: the year's tax-deductible rows (optionally
category-filtered, `f"{year}-01-01"`..`f"{year}-12-31"`, date
ascending), classified into the five fixed buckets; only non-empty
buckets are emitted, with rounded totals, counts, and the member rows
nested verbatim; `grand_total` rounds the sum of all bucket totals and
`total_count` counts every classified row. -/
def tax_summary (year : Nat) (category : Option String)
    (ledger : List Expense) : TaxSummary :=
  let start_date := toString year ++ "-01-01"
  let end_date := toString year ++ "-12-31"
  let texp := List.insertionSort byDateAsc (ledger.filter (fun r =>
    inRange start_date end_date r && (r.tax_deductible == 1) && catMatch category r))
  let bucketRows := fun b =>
    texp.filter (fun r => classify r.category (some r.subcategory) == b)
  let buckets := taxBuckets.map (fun b =>
    { tax_category := b, total := round2 (sumAmounts (bucketRows b)),
      count := (bucketRows b).length, expenses := bucketRows b })
  { grand_total := round2 ((taxBuckets.map (fun b => sumAmounts (bucketRows b))).sum),
    total_count := texp.length,
    summary := buckets.filter (fun e => !e.expenses.isEmpty) }

/-! ## Boundary rounding of monetary response fields -/

theorem isCent_zero : isCent 0 :=
  ⟨0, by norm_num⟩

theorem isCent_headMatch (o : Option (String × ℚ)) :
    isCent (match o with | some p => round2 p.2 | none => 0) := by
  cases o with
  | none => exact isCent_zero
  | some p => exact isCent_round2 _

/-- Row whose amount 1/8 = 0.125 (exactly representable as a SQLite
`REAL`) needs three decimal places. -/
def eC6 : Expense := ⟨1, "2025-02-03", 1 / 8, "food", "", "", 0, "EUR", ""⟩

/-- One-row ledger for the rounding counterexample. -/
def ledgerC6 : List Expense := [eC6]

/-- Counterexample for C6 as stated: `summarize` performs no rounding at
all — its `total_amount` is the raw SQL sum, so a 0.125 amount is
returned with three decimals, which no 2-decimal rounding scheme can
produce. -/
theorem summarize_unrounded_counterexample :
    (summarize "2025-02-01" "2025-02-28" none ledgerC6).map (·.total_amount)
        = [1 / 8] ∧
    ¬ isCent (1 / 8 : ℚ) := by
  constructor
  · have h : summarize "2025-02-01" "2025-02-28" none ledgerC6
        = [⟨"food", sumAmounts [eC6]⟩] := rfl
    rw [h]
    norm_num [sumAmounts, eC6]
  · rintro ⟨n, hn⟩
    have h2 : (8 : ℚ) * n = 100 := by
      field_simp at hn
      linarith
    have h3 : (8 : ℤ) * n = 100 := by exact_mod_cast h2
    omega

/-- C6 (amended): every monetary aggregate field of `compare_months`,
`analyze_trends`, `category_analytics`, `get_statistics`,
`forecast_expenses` and `tax_summary` is a 2-decimal (cent) value,
produced by rounding at the boundary of the response field;
`summarize` is the exception — its `total_amount` is the raw unrounded
group sum (also, `tax_summary` nests its member rows verbatim with
unrounded amounts, and the forecast's total fields round a sum of
already-rounded per-category averages). -/
theorem monetary_fields_rounded_at_boundary :
    ∀ (start_date end_date : String) (y1 m1 y2 m2 year todayY todayM todayD : Nat)
      (category : Option String) (g : GroupBy) (months_ahead lookback : Int)
      (ledger : List Expense),
      (isCent (compare_months y1 m1 y2 m2 category ledger).total1 ∧
        isCent (compare_months y1 m1 y2 m2 category ledger).total2 ∧
        isCent (compare_months y1 m1 y2 m2 category ledger).difference ∧
        isCent (compare_months y1 m1 y2 m2 category ledger).percent_change) ∧
      (∀ t ∈ analyze_trends start_date end_date g ledger,
        isCent t.total ∧ isCent t.average ∧
          isCent t.min_amount ∧ isCent t.max_amount) ∧
      (isCent (category_analytics start_date end_date ledger).total_spent ∧
        ∀ en ∈ (category_analytics start_date end_date ledger).categories,
          isCent en.total ∧ isCent en.average ∧ isCent en.min_amount ∧
            isCent en.max_amount ∧ isCent en.percentage) ∧
      (isCent (get_statistics start_date end_date ledger).total_spent ∧
        isCent (get_statistics start_date end_date ledger).average_expense ∧
        isCent (get_statistics start_date end_date ledger).min_expense ∧
        isCent (get_statistics start_date end_date ledger).max_expense ∧
        isCent (get_statistics start_date end_date ledger).daily_average ∧
        isCent (get_statistics start_date end_date ledger).most_expensive_day_total ∧
        isCent (get_statistics start_date end_date ledger).top_category_total) ∧
      (isCent (forecast_expenses todayY todayM todayD months_ahead lookback
          ledger).total_monthly_average ∧
        (∀ p ∈ (forecast_expenses todayY todayM todayD months_ahead lookback
            ledger).total_projections, isCent p.projected_amount) ∧
        ∀ cf ∈ (forecast_expenses todayY todayM todayD months_ahead lookback
            ledger).category_forecasts,
          isCent cf.historical_avg_monthly ∧
            ∀ p ∈ cf.projections, isCent p.projected_amount) ∧
      (isCent (tax_summary year category ledger).grand_total ∧
        ∀ b ∈ (tax_summary year category ledger).summary, isCent b.total) ∧
      (∀ row ∈ summarize start_date end_date category ledger,
        row.total_amount = sumAmounts
          ((summarizeRows start_date end_date category ledger).filter
            (fun r => r.category == row.category))) := by
  intro start_date end_date y1 m1 y2 m2 year todayY todayM todayD category g
    months_ahead lookback ledger
  refine ⟨⟨isCent_round2 _, isCent_round2 _, isCent_round2 _, isCent_round2 _⟩,
    ?_, ⟨isCent_round2 _, ?_⟩,
    ⟨isCent_round2 _, isCent_round2 _, isCent_round2 _, isCent_round2 _,
      isCent_round2 _, isCent_headMatch _, isCent_headMatch _⟩,
    ⟨isCent_round2 _, ?_, ?_⟩, ⟨isCent_round2 _, ?_⟩, ?_⟩
  · intro t ht
    obtain ⟨k, _, hkt⟩ := List.mem_map.mp ht
    rw [← hkt]
    exact ⟨isCent_round2 _, isCent_round2 _, isCent_round2 _, isCent_round2 _⟩
  · intro en hen
    obtain ⟨p, _, hp⟩ := List.mem_map.mp hen
    rw [← hp]
    exact ⟨isCent_round2 _, isCent_round2 _, isCent_round2 _,
      isCent_round2 _, isCent_round2 _⟩
  · intro p hp
    obtain ⟨mo, _, hmo⟩ := List.mem_map.mp hp
    rw [← hmo]
    exact isCent_round2 _
  · intro cf hcf
    obtain ⟨c, _, hc⟩ := List.mem_map.mp hcf
    rw [← hc]
    refine ⟨isCent_round2 _, ?_⟩
    intro p hp
    obtain ⟨mo, _, hmo⟩ := List.mem_map.mp hp
    rw [← hmo]
    exact isCent_round2 _
  · intro b hb
    obtain ⟨lbl, _, hlbl⟩ := List.mem_map.mp (List.mem_filter.mp hb).1
    rw [← hlbl]
    exact isCent_round2 _
  · intro row hrow
    obtain ⟨c, _, hc⟩ := List.mem_map.mp hrow
    rw [← hc]

/-- Witness for C6 (amended): the implicational clauses instantiated on
concrete data — the single trend entry of `ledgerB`, the "food" category
entry of `ledgerA`, and the raw summarize total of `ledgerC6`. -/
theorem monetary_fields_rounded_at_boundary_witness :
    (isCent (TrendEntry.mk "2025-03-05" 1 10 10 10 10).total ∧
      isCent (TrendEntry.mk "2025-03-05" 1 10 10 10 10).average ∧
      isCent (TrendEntry.mk "2025-03-05" 1 10 10 10 10).min_amount ∧
      isCent (TrendEntry.mk "2025-03-05" 1 10 10 10 10).max_amount) ∧
    (SummaryRow.mk "food" (1 / 8)).total_amount
      = sumAmounts ((summarizeRows "2025-02-01" "2025-02-28" none ledgerC6).filter
          (fun r => r.category == (SummaryRow.mk "food" (1 / 8)).category)) := by
  have hth := monetary_fields_rounded_at_boundary "2025-03-01" "2025-03-31"
    2025 1 2025 2 2025 2025 6 15 none GroupBy.day 3 6 ledgerB
  have htrend : analyze_trends "2025-03-01" "2025-03-31" GroupBy.day ledgerB
      = [⟨"2025-03-05", 1, 10, 10, 10, 10⟩] :=
    (analyze_trends_nonempty_sorted_witness).1
  have hmem : TrendEntry.mk "2025-03-05" 1 10 10 10 10
      ∈ analyze_trends "2025-03-01" "2025-03-31" GroupBy.day ledgerB := by
    rw [htrend]; exact List.mem_singleton.mpr rfl
  have hth6 := monetary_fields_rounded_at_boundary "2025-02-01" "2025-02-28"
    2025 1 2025 2 2025 2025 6 15 none GroupBy.day 3 6 ledgerC6
  have hsum : summarize "2025-02-01" "2025-02-28" none ledgerC6
      = [⟨"food", sumAmounts [eC6]⟩] := rfl
  have hrowmem : SummaryRow.mk "food" (1 / 8)
      ∈ summarize "2025-02-01" "2025-02-28" none ledgerC6 := by
    rw [hsum]
    have : sumAmounts [eC6] = 1 / 8 := by norm_num [sumAmounts, eC6]
    rw [this]
    exact List.mem_singleton.mpr rfl
  exact ⟨hth.2.1 _ hmem, hth6.2.2.2.2.2.2 _ hrowmem⟩

end ExpenseTracker
